import Mathlib

/-!
# Verification of the go-raml RAML 0.8 parser front end

Shallow embedding of the inclusion preprocessor (`preProcess`), the file
reader (`readFileContents`), the entry point (`ParseFile`), the YAML error
translator (`convertYAMLError`) and the polymorphic `DefinitionChoice`
decoder, as implemented in `parser.go`, `types.go` and the error-handling
file of the repository.

Strings are modelled as `List Char` (`Str`); the filesystem as a partial
map from file names to contents; Go runtime panics (out-of-range slice or
index operations) as an explicit `panic` outcome.
-/

namespace Raml

/-- Go strings, modelled as lists of characters. -/
abbrev Str := List Char

/-- Coerce a Lean string literal to the `List Char` model. -/
def str (s : String) : Str := s.data

/-- A filesystem: maps a file name to its byte content when readable.
`ParseFile` and `preProcess` resolve all names against one working
directory, so a single map keyed by the name models `filepath.Join`. -/
def FS := Str → Option Str

/-- `strings.Index hay pat`: index of the first occurrence of `pat` in
`hay`, `none` for Go's `-1`. -/
def strIndex (pat : Str) : Str → Option Nat
  | [] => if pat = [] then some 0 else none
  | c :: t =>
    if pat.isPrefixOf (c :: t) then some 0
    else (strIndex pat t).map (· + 1)

/-- `bufio.ScanLines` per-token clean-up: strip one trailing `'\r'`. -/
def dropCR (l : Str) : Str :=
  if l.getLast? = some '\r' then l.dropLast else l

/-- `strings.Split` on a one-character separator: split at every
occurrence, keeping the (possibly empty) final fragment; always returns a
non-empty list. -/
def splitSep (sep : Char) : Str → List Str
  | [] => [[]]
  | c :: t =>
    if c = sep then [] :: splitSep sep t
    else
      match splitSep sep t with
      | [] => [[c]]
      | p :: ps => (c :: p) :: ps

/-- The token sequence produced by a `bufio.Scanner` with the default
`ScanLines` split function: lines without their terminators, a trailing
`'\r'` stripped from each, and no empty token for a final terminator. -/
def scanLines (s : Str) : List Str :=
  let ps := splitSep '\n' s
  (if ps.getLast? = some [] then ps.dropLast else ps).map dropCR

/-- `readFileContents` from parser.go: empty names are rejected, then the
file is read; the text of the OS-level error is abstracted away, the
message still names the offending path. -/
def readFileContents (fs : FS) (fileName : Str) : Except Str Str :=
  if fileName = [] then
    .error (str "File name cannot be nil: " ++ fileName)
  else
    match fs fileName with
    | some contents => .ok contents
    | none => .error (str "Could not read file " ++ fileName)

/-- Outcome of `preProcess`: a Go runtime panic, an error return
(`nil, err` — the buffer is discarded), or the preprocessed bytes. -/
inductive PResult where
  | panic : PResult
  | error (msg : Str) : PResult
  | ok (buf : Str) : PResult
  deriving DecidableEq, Repr

/-- The inner loop of `preProcess` over the scanned lines of an included
file: the first line follows the already-written prefix directly
(`indentationString` is still empty when it is written), every later line
is indented by `idx` spaces, and every line gets a `'\n'`. -/
def spliceIncluded (idx : Nat) : List Str → Str
  | [] => []
  | l :: ls =>
    l ++ ['\n'] ++ (ls.map (fun l2 => List.replicate idx ' ' ++ l2 ++ ['\n'])).flatten

/-- The main scanner loop of `preProcess`, one host line at a time.
A line holding `"!include"` at index `idx` is split as in the source:
prefix `line[:idx]`, included path `line[idx+9:]` (9 = `len("!include ")`);
the slice panics when `idx + 9 > line.length`. -/
def processLines (fs : FS) : List Str → Str → PResult
  | [], acc => .ok acc
  | line :: rest, acc =>
    match strIndex (str "!include") line with
    | none => processLines fs rest (acc ++ line ++ ['\n'])
    | some idx =>
      if line.length < idx + 9 then .panic
      else
        let includedFile := line.drop (idx + 9)
        match readFileContents fs includedFile with
        | .error e =>
          .error (str "Error including file " ++ includedFile ++ str ":\n    " ++ e)
        | .ok includedContents =>
          processLines fs rest
            (acc ++ line.take idx ++ spliceIncluded idx (scanLines includedContents))

/-- `preProcess` from parser.go: scan the host text line by line, expand
`!include` directives textually, rejoin with `'\n'`. -/
def preProcess (fs : FS) (originalContents : Str) : PResult :=
  processLines fs (scanLines originalContents) []

/-- The result of a Go function returning `(*APIDefinition, error)`:
either some runtime panic occurred before a return, or a pair of an
optional model pointer and an optional error was returned. -/
inductive GoResult (M : Type) where
  | panicked : GoResult M
  | returned (model : Option M) (err : Option Str) : GoResult M
  deriving DecidableEq, Repr

/-- Holds of a `GoResult` when it is not a return of both a model and an
error, nor of neither. -/
def exclusiveResult {M : Type} : GoResult M → Prop
  | .panicked => True
  | .returned model err => (∃ m, model = some m ∧ err = none) ∨
      (model = none ∧ ∃ e, err = some e)

/-- `bufio.Buffer.ReadString '\n'`: the first line including its
terminator together with the remainder, or `none` when no terminator
exists before EOF (Go then also returns the partial data, but `ParseFile`
only inspects the non-nil error). -/
def readLineNL : Str → Option (Str × Str)
  | [] => none
  | c :: t =>
    if c = '\n' then some ([c], t)
    else (readLineNL t).map (fun p => (c :: p.1, p.2))

/-- The fixed version-mismatch error text of `ParseFile`. -/
def versionErrorMsg : Str :=
  str "Input file is not a RAML 0.8 file. Make sure the file starts with #%RAML 0.8"

/-- `ParseFile` from parser.go, with the external YAML decoding engine
(`yaml.Unmarshal`) passed in as `unmarshal` per the engine contract:
read the main file, check the first line's version marker, preprocess,
then decode. -/
def ParseFileGo {M : Type} (fs : FS) (fileName : Str)
    (unmarshal : Str → Except Str M) : GoResult M :=
  match readFileContents fs fileName with
  | .error e => .returned none (some e)
  | .ok mainFileBytes =>
    match readLineNL mainFileBytes with
    | none => .returned none (some (str "Problem reading RAML file (Error: EOF)"))
    | some (firstLine, rest) =>
      let ramlVersion := if 10 ≤ firstLine.length then firstLine.take 10 else []
      if ramlVersion ≠ str "#%RAML 0.8" then
        .returned none (some versionErrorMsg)
      else
        match preProcess fs rest with
        | .panic => .panicked
        | .error e =>
          .returned none
            (some (str "Error preprocessing RAML file (Error: " ++ e ++ str ")"))
        | .ok buf =>
          match unmarshal buf with
          | .error e =>
            .returned none (some (str "Problems parsing RAML:\n  " ++ e))
          | .ok m => .returned (some m) none

/-! ## The YAML error translator -/

/-- `strings.Contains`. -/
def containsSubstr (hay pat : Str) : Bool :=
  (strIndex pat hay).isSome

/-- Go map lookup `m[k]` with its `ok` flag, for a map embedded as an
association list. -/
def goLookup (m : List (Str × Str)) (k : Str) : Option Str :=
  (m.find? (fun p => p.1 == k)).map (·.2)

/-- The `yamlTypeToName` map: YAML node-kind tags to human labels. -/
def yamlTypeToName : List (Str × Str) :=
  [(str "!!seq", str "sequence"), (str "!!map", str "mapping"),
   (str "!!int", str "integer"), (str "!!str", str "string"),
   (str "!!null", str "null"), (str "!!bool", str "boolean"),
   (str "!!float", str "float"), (str "!!timestamp", str "timestamp"),
   (str "!!binary", str "binary"), (str "!!merge", str "merge")]

/-- The `ramlTypeNames` map: Go type names to destination labels. -/
def ramlTypeNames : List (Str × Str) :=
  [(str "string", str "string value"), (str "int", str "numeric value"),
   (str "raml.NamedParameter", str "named parameter"),
   (str "raml.HTTPCode", str "HTTP code"),
   (str "raml.HTTPHeader", str "HTTP header"),
   (str "raml.Header", str "header"),
   (str "raml.Documentation", str "documentation"),
   (str "raml.Body", str "body"), (str "raml.Response", str "response"),
   (str "raml.DefinitionParameters", str "definition parameters"),
   (str "raml.DefinitionChoice", str "definition choice"),
   (str "raml.Trait", str "trait"),
   (str "raml.ResourceTypeMethod", str "resource type method"),
   (str "raml.ResourceType", str "resource type"),
   (str "raml.SecuritySchemeMethod", str "security scheme method"),
   (str "raml.SecurityScheme", str "security scheme"),
   (str "raml.Method", str "method"), (str "raml.Resource", str "resource"),
   (str "raml.APIDefinition", str "API definition")]

/-- The `ramlTypes` map: Go type names to expected node-kind categories. -/
def ramlTypes : List (Str × Str) :=
  [(str "string", str "string"), (str "int", str "integer"),
   (str "raml.NamedParameter", str "mapping"),
   (str "raml.HTTPCode", str "integer"),
   (str "raml.HTTPHeader", str "string"),
   (str "raml.Header", str "mapping"),
   (str "raml.Documentation", str "mapping"),
   (str "raml.Body", str "mapping"), (str "raml.Response", str "mapping"),
   (str "raml.DefinitionParameters", str "mapping"),
   (str "raml.DefinitionChoice", str "string or mapping"),
   (str "raml.Trait", str "mapping"),
   (str "raml.ResourceTypeMethod", str "mapping"),
   (str "raml.ResourceType", str "mapping"),
   (str "raml.SecuritySchemeMethod", str "mapping"),
   (str "raml.SecurityScheme", str "mapping"),
   (str "raml.Method", str "mapping"), (str "raml.Resource", str "mapping"),
   (str "raml.APIDefinition", str "mapping")]

/-- The final `fmt.Sprintf("line %s: %s cannot be of type %s, must be %s",
line, targetName, source, target)` of `convertYAMLError`, after the two
final table lookups: `targetName` falls back to the raw token, while
`target, _ = ramlTypes[target]` silently becomes the empty string on a
missing key. -/
def composeRamlError (line target source : Str) : Str :=
  let targetName := (goLookup ramlTypeNames target).getD target
  let targetType := (goLookup ramlTypes target).getD []
  str "line " ++ line ++ str ": " ++ targetName ++
    str " cannot be of type " ++ source ++ str ", must be " ++ targetType

/-- `convertYAMLError` from the error-handling file: translate one raw
YAML error line into a RAML diagnostic. `none` models a Go runtime panic:
`line[:len(line)-1]` on an empty `parts[1]`, or `parts[7]` when only 7
parts exist. -/
def convertYAMLError (yamlError : Str) : Option Str :=
  if containsSubstr yamlError (str "cannot unmarshal") then
    if 7 ≤ (splitSep ' ' yamlError).length then
      let parts := splitSep ' ' yamlError
      let p1 := parts.getD 1 []
      if p1 = [] then none
      else
        let line := p1.dropLast
        let p4 := parts.getD 4 []
        let source := (goLookup yamlTypeToName p4).getD p4
        if source = str "string" then
          if (splitSep ' ' yamlError).length < 8 then none
          else
            some (composeRamlError line (parts.getD 7 [])
              (str "string (got " ++ parts.getD 5 [] ++ str ")"))
        else
          some (composeRamlError line (parts.getD 6 []) source)
    else some (str "YAML error, " ++ yamlError)
  else some (str "YAML error, " ++ yamlError)

/-! ## The polymorphic `DefinitionChoice` decoder -/

/-- `DefinitionParameters` (`map[string]string`), embedded as an
association list. -/
abbrev DefinitionParameters := List (Str × Str)

/-- `DefinitionChoice` from types.go: a trait / resource-type / scheme
reference by name with optional parameters; `Parameters = none` models
Go's `nil` map. -/
structure DefinitionChoice where
  Name : Str
  Parameters : Option DefinitionParameters
  deriving DecidableEq, Repr

/-- A YAML node at a `DefinitionChoice` position, abstracted to the two
shapes the decoder distinguishes. -/
inductive YamlNode where
  | scalar (s : Str) : YamlNode
  | mapping (entries : List (Str × DefinitionParameters)) : YamlNode
  deriving DecidableEq, Repr

/-- Modelled from the decoding-engine contract: decoding into a `*string`
target succeeds exactly on scalar nodes, yielding the scalar text. -/
def unmarshalString : YamlNode → Except Str Str
  | .scalar s => .ok s
  | .mapping _ => .error (str "cannot unmarshal !!map into string")

/-- Modelled from the decoding-engine contract: decoding into a
`map[string]DefinitionParameters` target succeeds exactly on mapping
nodes, yielding the entries. -/
def unmarshalParameterized : YamlNode → Except Str (List (Str × DefinitionParameters))
  | .scalar _ =>
    .error (str "cannot unmarshal !!str into map[string]raml.DefinitionParameters")
  | .mapping entries => .ok entries

/-- `DefinitionChoice.UnmarshalYAML` from types.go: try the simple string
form first; on failure, try the parameterized one-key-mapping form, whose
`range` loop overwrites `Name`/`Parameters` per entry (Go map iteration
order is abstracted to the entry-list order; the claims only exercise
single-entry mappings, where the orders agree). -/
def unmarshalDefinitionChoice (node : YamlNode) : Except Str DefinitionChoice :=
  match unmarshalString node with
  | .ok s => .ok ⟨s, none⟩
  | .error _ =>
    match unmarshalParameterized node with
    | .ok entries =>
      .ok (entries.foldl (fun dc kv => { dc with Name := kv.1, Parameters := some kv.2 })
        ⟨[], none⟩)
    | .error e => .error e

/-! ## Scanner and splitter lemmas -/

theorem splitSep_ne_nil (sep : Char) (s : Str) : splitSep sep s ≠ [] := by
  cases s with
  | nil => simp [splitSep]
  | cons c t =>
    unfold splitSep
    by_cases h : c = sep
    · simp [h]
    · simp only [h, if_false]
      split <;> simp

theorem splitSep_append_cons (sep : Char) (l rest : Str) (h : sep ∉ l) :
    splitSep sep (l ++ sep :: rest) = l :: splitSep sep rest := by
  induction l with
  | nil => simp [splitSep]
  | cons c t ih =>
    have hc : ¬ c = sep := fun hc => h (hc ▸ List.mem_cons_self c t)
    have ht : sep ∉ t := fun hm => h (List.mem_cons_of_mem _ hm)
    simp [splitSep, hc, ih ht]

theorem dropCR_eq_self (l : Str) (h : l.getLast? ≠ some '\r') : dropCR l = l := by
  unfold dropCR
  rw [if_neg h]

theorem scanLines_nil : scanLines [] = [] := rfl

theorem scanLines_cons (l s : Str) (h : '\n' ∉ l) :
    scanLines (l ++ '\n' :: s) = dropCR l :: scanLines s := by
  simp only [scanLines]
  rw [splitSep_append_cons _ _ _ h]
  obtain ⟨p, pt, hp⟩ := List.exists_cons_of_ne_nil (splitSep_ne_nil '\n' s)
  rw [hp]
  by_cases hl : (p :: pt).getLast? = some []
  · rw [List.getLast?_cons_cons, if_pos hl, if_pos hl, List.dropLast_cons₂, List.map_cons]
  · rw [List.getLast?_cons_cons, if_neg hl, if_neg hl, List.map_cons]

theorem scanLines_flatten (ls : List Str) (h : ∀ l ∈ ls, '\n' ∉ l) :
    scanLines ((ls.map (· ++ ['\n'])).flatten) = ls.map dropCR := by
  induction ls with
  | nil => simp [scanLines_nil]
  | cons l t ih =>
    simp only [List.map_cons, List.flatten_cons]
    have hsplice : (l ++ ['\n']) ++ (t.map (· ++ ['\n'])).flatten =
        l ++ '\n' :: (t.map (· ++ ['\n'])).flatten := by
      simp
    rw [hsplice, scanLines_cons _ _ (h l (List.mem_cons_self l t)),
      ih (fun x hx => h x (List.mem_cons_of_mem _ hx))]

theorem processLines_no_include (fs : FS) (ls : List Str) (acc : Str)
    (h : ∀ l ∈ ls, strIndex (str "!include") l = none) :
    processLines fs ls acc = .ok (acc ++ (ls.map (· ++ ['\n'])).flatten) := by
  induction ls generalizing acc with
  | nil => simp [processLines]
  | cons l t ih =>
    simp only [processLines, h l (List.mem_cons_self l t)]
    rw [ih _ (fun x hx => h x (List.mem_cons_of_mem _ hx))]
    simp [List.append_assoc]

theorem readLineNL_eq_none (s : Str) (h : '\n' ∉ s) : readLineNL s = none := by
  induction s with
  | nil => rfl
  | cons c t ih =>
    have hc : ¬ c = '\n' := fun hc => h (hc ▸ List.mem_cons_self c t)
    simp only [readLineNL, if_neg hc, ih (fun hm => h (List.mem_cons_of_mem _ hm)),
      Option.map_none']

theorem readLineNL_append (l rest : Str) (h : '\n' ∉ l) :
    readLineNL (l ++ '\n' :: rest) = some (l ++ ['\n'], rest) := by
  induction l with
  | nil => simp [readLineNL]
  | cons c t ih =>
    have hc : ¬ c = '\n' := fun hc => h (hc ▸ List.mem_cons_self c t)
    simp [readLineNL, hc, ih (fun hm => h (List.mem_cons_of_mem _ hm))]

theorem strIndex_isSome_iff (pat hay : Str) :
    (strIndex pat hay).isSome = true ↔ pat <:+: hay := by
  induction hay with
  | nil =>
    by_cases hp : pat = []
    · simp [strIndex, hp]
    · simp [strIndex, hp]
  | cons c t ih =>
    by_cases hp : pat.isPrefixOf (c :: t)
    · simp only [strIndex, if_pos hp, Option.isSome_some, true_iff]
      exact (List.isPrefixOf_iff_prefix.mp hp).isInfix
    · have hp' : ¬ pat <+: (c :: t) := fun hpre => hp (List.isPrefixOf_iff_prefix.mpr hpre)
      simp only [strIndex, if_neg hp, List.infix_cons_iff, hp', false_or]
      rw [← ih]
      cases strIndex pat t <;> simp

theorem strIndex_eq_none_iff (pat hay : Str) : strIndex pat hay = none ↔ ¬ pat <:+: hay := by
  rw [← strIndex_isSome_iff]
  cases strIndex pat hay <;> simp

theorem containsSubstr_iff (hay pat : Str) : containsSubstr hay pat = true ↔ pat <:+: hay := by
  unfold containsSubstr
  exact strIndex_isSome_iff pat hay

theorem readFileContents_ok (fs : FS) (n c : Str) (hn : n ≠ []) (hc : fs n = some c) :
    readFileContents fs n = .ok c := by
  unfold readFileContents
  rw [if_neg hn, hc]

theorem readFileContents_notFound (fs : FS) (n : Str) (hn : n ≠ []) (hfs : fs n = none) :
    readFileContents fs n = .error (str "Could not read file " ++ n) := by
  unfold readFileContents
  rw [if_neg hn, hfs]

theorem cons_ne_of_head_ne {a b : Char} (t1 t2 : Str) (h : a ≠ b) :
    (a :: t1 : Str) ≠ (b :: t2 : Str) := by
  intro hc
  injection hc with h1 _
  exact h h1

theorem versionCheck_iff (firstLine : Str) :
    ((if 10 ≤ firstLine.length then firstLine.take 10 else []) = str "#%RAML 0.8") ↔
      (str "#%RAML 0.8").isPrefixOf firstLine = true := by
  have hlen : (str "#%RAML 0.8").length = 10 := by decide
  rw [List.isPrefixOf_iff_prefix, List.prefix_iff_eq_take, hlen]
  by_cases h : 10 ≤ firstLine.length
  · rw [if_pos h]
    exact ⟨fun he => he.symm, fun he => he.symm⟩
  · rw [if_neg h]
    constructor
    · intro he
      exact absurd he.symm (by decide)
    · intro he
      have hl := congrArg List.length he
      rw [hlen, List.length_take] at hl
      omega

/-! ## Claim theorems -/

/-- C9: a host line that contains the marker `"!include"` fewer than 9
characters before its end — such as the line that is exactly `"!include"`
— makes the slice `line[idx+includeLength:]` of `preProcess` go out of
bounds, so the operation panics instead of returning an include error. -/
theorem preProcess_short_include_panics (fs : FS) :
    preProcess fs (str "!include") = PResult.panic := by
  rfl

/-- C10: a main file without any newline character fails `ReadString '\n'`
with EOF, so `ParseFile` reports a file-reading problem — even when the
whole content equals the version marker `"#%RAML 0.8"`. -/
theorem parseFile_no_newline_read_error {M : Type} (fs : FS) (fileName content : Str)
    (u : Str → Except Str M) (hname : fileName ≠ []) (hfs : fs fileName = some content)
    (hnl : '\n' ∉ content) :
    ParseFileGo fs fileName u =
      .returned none (some (str "Problem reading RAML file (Error: EOF)")) := by
  simp only [ParseFileGo, readFileContents_ok fs fileName content hname hfs,
    readLineNL_eq_none content hnl]

/-- Witness for C10: a file whose entire content is `"#%RAML 0.8"` with no
newline yields the file-reading error. -/
theorem parseFile_no_newline_read_error_witness :
    ParseFileGo (M := Unit)
      (fun n => if n = str "main.raml" then some (str "#%RAML 0.8") else none)
      (str "main.raml") (fun _ => .ok ()) =
      .returned none (some (str "Problem reading RAML file (Error: EOF)")) :=
  parseFile_no_newline_read_error
    (fun n => if n = str "main.raml" then some (str "#%RAML 0.8") else none)
    (str "main.raml") (str "#%RAML 0.8") (fun _ => .ok ())
    (by decide) (by decide) (by decide)

/-- C6: decoding a bare scalar `traitName` into a `DefinitionChoice`
yields that name with a nil parameter map; decoding a single-key mapping
`{traitName: {p: v}}` yields the key as name and its nested mapping as
parameters; and whenever the scalar decoding succeeds its result is used,
the mapping decoding being attempted only on scalar failure. -/
theorem unmarshalDefinitionChoice_spec (name : Str) (params : DefinitionParameters) :
    unmarshalDefinitionChoice (.scalar name) = .ok ⟨name, none⟩ ∧
    unmarshalDefinitionChoice (.mapping [(name, params)]) = .ok ⟨name, some params⟩ ∧
    (∀ (node : YamlNode) (s : Str), unmarshalString node = .ok s →
      unmarshalDefinitionChoice node = .ok ⟨s, none⟩) := by
  refine ⟨rfl, rfl, ?_⟩
  intro node s h
  cases node with
  | scalar s' =>
    simp only [unmarshalString, Except.ok.injEq] at h
    subst h
    rfl
  | mapping m => simp [unmarshalString] at h

/-- Witness for C6: the two concrete decodings of the claim, plus the
scalar-first clause applied at a concrete scalar node. -/
theorem unmarshalDefinitionChoice_spec_witness :
    unmarshalDefinitionChoice (.scalar (str "traitName")) = .ok ⟨str "traitName", none⟩ ∧
    unmarshalDefinitionChoice (.mapping [(str "traitName", [(str "p", str "v")])]) =
      .ok ⟨str "traitName", some [(str "p", str "v")]⟩ ∧
    unmarshalDefinitionChoice (.scalar (str "t")) = .ok ⟨str "t", none⟩ :=
  ⟨(unmarshalDefinitionChoice_spec (str "traitName") []).1,
   (unmarshalDefinitionChoice_spec (str "traitName") [(str "p", str "v")]).2.1,
   (unmarshalDefinitionChoice_spec (str "t") []).2.2 (.scalar (str "t")) (str "t") rfl⟩

/-- C8: every terminating run of `ParseFile` returns either a model with a
nil error or no model with a non-nil error — never a partially populated
model together with an error. -/
theorem parseFile_exclusive {M : Type} (fs : FS) (fileName : Str)
    (u : Str → Except Str M) : exclusiveResult (ParseFileGo fs fileName u) := by
  unfold ParseFileGo
  repeat' split
  all_goals simp [exclusiveResult]
  all_goals split_ifs <;> simp

theorem processLines_include_step (fs : FS) (line : Str) (rest : List Str)
    (acc : Str) (c : Nat) (content L1 : Str) (Ls : List Str)
    (hidx : strIndex (str "!include") line = some c)
    (hlen : c + 9 ≤ line.length)
    (hfile : readFileContents fs (line.drop (c + 9)) = .ok content)
    (hlines : scanLines content = L1 :: Ls) :
    processLines fs (line :: rest) acc =
      processLines fs rest
        (acc ++ line.take c ++ L1 ++ ['\n'] ++
          (Ls.map (fun l => List.replicate c ' ' ++ l ++ ['\n'])).flatten) := by
  have hnlt : ¬ line.length < c + 9 := by omega
  simp only [processLines, hidx, hnlt, if_false, hfile, hlines, spliceIncluded]
  simp [List.append_assoc]

/-- C1: a host line carrying `"!include"` at column `c` whose referenced
file (the text from column `c + 9` on) reads successfully with lines
`L1 :: Ls` contributes to the output exactly: the pre-directive prefix
`line[:c]` unchanged, then `L1` with no added indentation, then every
later line prefixed with `c` spaces, every emitted line
newline-terminated. -/
theorem processLines_include_splice (fs : FS) (line : Str) (rest : List Str)
    (acc : Str) (c : Nat) (content L1 : Str) (Ls : List Str)
    (hidx : strIndex (str "!include") line = some c)
    (hlen : c + 9 ≤ line.length)
    (hfile : readFileContents fs (line.drop (c + 9)) = .ok content)
    (hlines : scanLines content = L1 :: Ls) :
    processLines fs (line :: rest) acc =
      processLines fs rest
        (acc ++ line.take c ++ L1 ++ ['\n'] ++
          (Ls.map (fun l => List.replicate c ' ' ++ l ++ ['\n'])).flatten) :=
  processLines_include_step fs line rest acc c content L1 Ls hidx hlen hfile hlines

/-- Witness for C1: the directive `"k: !include f"` (marker at column 3)
with `f` holding two lines `"a"` and `"b"` expands to
`"k: a\n   b\n"`. -/
theorem processLines_include_splice_witness :
    processLines (fun n => if n = str "f" then some (str "a\nb") else none)
        [str "k: !include f"] [] =
      PResult.ok (str "k: a\n   b\n") := by
  have h := processLines_include_splice
    (fun n => if n = str "f" then some (str "a\nb") else none)
    (str "k: !include f") [] [] 3 (str "a\nb") (str "a") [str "b"]
    (by decide) (by decide) rfl (by decide)
  exact h.trans (by decide)

/-- C2, counterexample: the one-line document `"a"` contains no inclusion
marker, yet `preProcess` appends a terminating newline the input did not
have, so the output is not byte-for-byte the input. -/
theorem preProcess_not_identity_counterexample :
    (∀ l ∈ scanLines (str "a"), strIndex (str "!include") l = none) ∧
    preProcess (fun _ => none) (str "a") ≠ PResult.ok (str "a") ∧
    preProcess (fun _ => none) (str "a") = PResult.ok (str "a\n") := by
  decide

/-- C2, amended: on a directive-free document every line of which is
newline-terminated and free of carriage returns before the terminator,
`preProcess` is the identity; in general it re-emits each scanned line
with exactly one terminating `'\n'`. -/
theorem preProcess_identity_on_terminated (fs : FS) (ls : List Str)
    (hnl : ∀ l ∈ ls, '\n' ∉ l)
    (hcr : ∀ l ∈ ls, l.getLast? ≠ some '\r')
    (hmk : ∀ l ∈ ls, strIndex (str "!include") l = none) :
    preProcess fs ((ls.map (· ++ ['\n'])).flatten) =
      PResult.ok ((ls.map (· ++ ['\n'])).flatten) := by
  unfold preProcess
  rw [scanLines_flatten ls hnl]
  have hmap : ls.map dropCR = ls := by
    apply List.map_congr_left ?_ |>.trans (List.map_id ls)
    intro l hl
    exact dropCR_eq_self l (hcr l hl)
  rw [hmap, processLines_no_include fs ls [] hmk, List.nil_append]

/-- Witness for C2 (amended): the marker-free line `"a: b"`, newline
terminated, passes through `preProcess` unchanged. -/
theorem preProcess_identity_on_terminated_witness :
    preProcess (fun _ => none) (([str "a: b"].map (· ++ ['\n'])).flatten) =
      PResult.ok (([str "a: b"].map (· ++ ['\n'])).flatten) :=
  preProcess_identity_on_terminated (fun _ => none) [str "a: b"]
    (by decide) (by decide) (by decide)

theorem versionErrorMsg_cons :
    versionErrorMsg =
      'I' :: str "nput file is not a RAML 0.8 file. Make sure the file starts with #%RAML 0.8" :=
  rfl

theorem preprocessWrap_cons (e : Str) :
    str "Error preprocessing RAML file (Error: " ++ e ++ str ")" =
      'E' :: (str "rror preprocessing RAML file (Error: " ++ e ++ str ")") :=
  rfl

theorem parseWrap_cons (e : Str) :
    str "Problems parsing RAML:\n  " ++ e = 'P' :: (str "roblems parsing RAML:\n  " ++ e) :=
  rfl

/-- C3, counterexample: a first line that merely begins with the marker
but does not equal it (`"#%RAML 0.8 with junk"`) raises no version error:
`ParseFile` decodes the file and succeeds, refuting "any first-line
content other than the marker yields the version error". -/
theorem parseFile_version_counterexample :
    str "#%RAML 0.8 with junk" ≠ str "#%RAML 0.8" ∧
    str "#%RAML 0.8 with junk\n" ≠ str "#%RAML 0.8" ∧
    readLineNL (str "#%RAML 0.8 with junk\ntitle: x\n") =
      some (str "#%RAML 0.8 with junk\n", str "title: x\n") ∧
    ParseFileGo (M := Unit)
      (fun n => if n = str "api.raml" then some (str "#%RAML 0.8 with junk\ntitle: x\n") else none)
      (str "api.raml") (fun _ => .ok ()) = .returned (some ()) none := by
  refine ⟨by decide, by decide, by decide, ?_⟩
  decide

/-- C3, amended: for a readable main file whose content has a first
newline-terminated line, `ParseFile` returns the version-mismatch error
if and only if that first line (terminator included) does not *begin*
with the 10-character marker `"#%RAML 0.8"`; decoding is attempted on no
such file. -/
theorem parseFile_version_error_iff {M : Type} (fs : FS) (fileName content firstLine rest : Str)
    (u : Str → Except Str M)
    (hname : fileName ≠ [])
    (hfs : fs fileName = some content)
    (hline : readLineNL content = some (firstLine, rest)) :
    (ParseFileGo fs fileName u = .returned none (some versionErrorMsg) ↔
      ¬ (str "#%RAML 0.8").isPrefixOf firstLine = true) := by
  simp only [ParseFileGo, readFileContents_ok fs fileName content hname hfs, hline]
  by_cases hv : (if 10 ≤ firstLine.length then firstLine.take 10 else []) = str "#%RAML 0.8"
  · rw [if_neg (not_not_intro hv)]
    have hpre := (versionCheck_iff firstLine).mp hv
    rw [hpre]
    simp only [not_true_eq_false, iff_false]
    intro h
    split at h
    · simp at h
    · simp only [GoResult.returned.injEq, Option.some.injEq, true_and] at h
      rw [preprocessWrap_cons, versionErrorMsg_cons] at h
      exact cons_ne_of_head_ne _ _ (by decide) h
    · split at h
      · simp only [GoResult.returned.injEq, Option.some.injEq, true_and] at h
        rw [parseWrap_cons, versionErrorMsg_cons] at h
        exact cons_ne_of_head_ne _ _ (by decide) h
      · simp at h
  · rw [if_pos hv]
    exact ⟨fun _ hpre => hv ((versionCheck_iff firstLine).mpr hpre), fun _ => rfl⟩

/-- Witness for C3 (amended): a file starting `"not raml\n"` gets exactly
the version-mismatch error. -/
theorem parseFile_version_error_iff_witness :
    ParseFileGo (M := Unit)
      (fun n => if n = str "api.raml" then some (str "not raml\ntitle: x\n") else none)
      (str "api.raml") (fun _ => .ok ()) = .returned none (some versionErrorMsg) :=
  (parseFile_version_error_iff
    (fun n => if n = str "api.raml" then some (str "not raml\ntitle: x\n") else none)
    (str "api.raml") (str "not raml\ntitle: x\n") (str "not raml\n") (str "title: x\n")
    (fun _ => .ok ()) (by decide) (by decide) (by decide)).mpr (by decide)

theorem processLines_append_no_include (fs : FS) (pre ls : List Str) (acc : Str)
    (h : ∀ l ∈ pre, strIndex (str "!include") l = none) :
    processLines fs (pre ++ ls) acc =
      processLines fs ls (acc ++ (pre.map (· ++ ['\n'])).flatten) := by
  induction pre generalizing acc with
  | nil => simp
  | cons l t ih =>
    simp only [List.cons_append, processLines, h l (List.mem_cons_self l t), List.append_eq]
    rw [ih _ (fun x hx => h x (List.mem_cons_of_mem _ hx))]
    simp [List.append_assoc]

/-- C5: a document whose first directive (here: first marker-bearing line
after marker-free ones) references an unreadable file makes `preProcess`
abort: `ParseFile` returns, for every decoder, an error that names the
offending referenced file, with no model and no decoding attempted. -/
theorem parseFile_include_error {M : Type} (fs : FS) (fileName body : Str)
    (pre : List Str) (ld : Str) (rest : List Str) (c : Nat)
    (hname : fileName ≠ [])
    (hfs : fs fileName = some (str "#%RAML 0.8" ++ '\n' :: body))
    (hscan : scanLines body = pre ++ ld :: rest)
    (hpre : ∀ l ∈ pre, strIndex (str "!include") l = none)
    (hidx : strIndex (str "!include") ld = some c)
    (hlen : c + 9 ≤ ld.length)
    (hpath : ld.drop (c + 9) ≠ [])
    (hbad : fs (ld.drop (c + 9)) = none) :
    (∀ u : Str → Except Str M, ParseFileGo fs fileName u =
      .returned none (some (str "Error preprocessing RAML file (Error: " ++
        (str "Error including file " ++ ld.drop (c + 9) ++ str ":\n    " ++
          str "Could not read file " ++ ld.drop (c + 9)) ++ str ")"))) ∧
    ld.drop (c + 9) <:+:
      (str "Error preprocessing RAML file (Error: " ++
        (str "Error including file " ++ ld.drop (c + 9) ++ str ":\n    " ++
          str "Could not read file " ++ ld.drop (c + 9)) ++ str ")") := by
  have hmain : readLineNL (str "#%RAML 0.8" ++ '\n' :: body) =
      some (str "#%RAML 0.8" ++ ['\n'], body) :=
    readLineNL_append _ _ (by decide)
  have hfirst : (if 10 ≤ (str "#%RAML 0.8" ++ ['\n']).length then
      (str "#%RAML 0.8" ++ ['\n']).take 10 else []) = str "#%RAML 0.8" := by decide
  have hproc : preProcess fs body =
      .error (str "Error including file " ++ ld.drop (c + 9) ++ str ":\n    " ++
        str "Could not read file " ++ ld.drop (c + 9)) := by
    unfold preProcess
    rw [hscan, processLines_append_no_include fs pre (ld :: rest) [] hpre]
    have hnlt : ¬ ld.length < c + 9 := by omega
    simp only [processLines, hidx, hnlt, if_false,
      readFileContents_notFound fs _ hpath hbad]
    simp [List.append_assoc]
  constructor
  · intro u
    simp only [ParseFileGo, readFileContents_ok fs fileName _ hname hfs, hmain, hfirst,
      hproc, ne_eq, not_true_eq_false, if_false]
  · exact ⟨str "Error preprocessing RAML file (Error: " ++ str "Error including file ",
      str ":\n    " ++ str "Could not read file " ++ ld.drop (c + 9) ++ str ")",
      by simp [List.append_assoc]⟩

/-- Witness for C5: the document `"#%RAML 0.8\nk: !include nope\n"` whose
included file `nope` does not exist yields the wrapped include error
naming `nope`, independently of the decoder. -/
theorem parseFile_include_error_witness :
    ParseFileGo (M := Unit)
      (fun n => if n = str "api.raml" then
        some (str "#%RAML 0.8" ++ '\n' :: str "k: !include nope\n") else none)
      (str "api.raml") (fun _ => .ok ()) =
      .returned none (some (str "Error preprocessing RAML file (Error: " ++
        (str "Error including file " ++ (str "k: !include nope").drop (3 + 9) ++ str ":\n    " ++
          str "Could not read file " ++ (str "k: !include nope").drop (3 + 9)) ++ str ")")) ∧
    (str "k: !include nope").drop (3 + 9) <:+:
      (str "Error preprocessing RAML file (Error: " ++
        (str "Error including file " ++ (str "k: !include nope").drop (3 + 9) ++ str ":\n    " ++
          str "Could not read file " ++ (str "k: !include nope").drop (3 + 9)) ++ str ")") := by
  have h := parseFile_include_error (M := Unit)
    (fun n => if n = str "api.raml" then
      some (str "#%RAML 0.8" ++ '\n' :: str "k: !include nope\n") else none)
    (str "api.raml") (str "k: !include nope\n") [] (str "k: !include nope") [] 3
    (by decide) (by decide) (by decide) (by decide) (by decide) (by decide)
    (by decide) (by decide)
  exact ⟨h.1 (fun _ => .ok ()), h.2⟩

/-- C7: expansion is a single textual pass over the host document: an
included file whose own lines carry the `"!include"` marker is copied
into the output re-indented but unexpanded, so the marker survives
verbatim in the output. -/
theorem preProcess_no_recursive_expansion (fs : FS) (ld : Str) (c : Nat)
    (content L1 : Str) (Ls : List Str) (lmark : Str)
    (hidx : strIndex (str "!include") ld = some c)
    (hlen : c + 9 ≤ ld.length)
    (hfile : readFileContents fs (ld.drop (c + 9)) = .ok content)
    (hlines : scanLines content = L1 :: Ls)
    (hmem : lmark ∈ scanLines content)
    (hmark : containsSubstr lmark (str "!include") = true) :
    processLines fs [ld] [] =
      PResult.ok (ld.take c ++ L1 ++ ['\n'] ++
        (Ls.map (fun l => List.replicate c ' ' ++ l ++ ['\n'])).flatten) ∧
    str "!include" <:+:
      (ld.take c ++ L1 ++ ['\n'] ++
        (Ls.map (fun l => List.replicate c ' ' ++ l ++ ['\n'])).flatten) := by
  have hsplice := processLines_include_step fs ld [] [] c content L1 Ls hidx hlen hfile hlines
  constructor
  · rw [hsplice]
    simp [processLines]
  · have hmm : lmark ∈ L1 :: Ls := hlines ▸ hmem
    have hin : (str "!include") <:+: lmark := (containsSubstr_iff lmark (str "!include")).mp hmark
    rcases List.mem_cons.mp hmm with h1 | h2
    · subst h1
      exact hin.trans ⟨ld.take c,
        ['\n'] ++ (Ls.map (fun l => List.replicate c ' ' ++ l ++ ['\n'])).flatten,
        by simp [List.append_assoc]⟩
    · have hmem2 : (List.replicate c ' ' ++ lmark ++ ['\n']) ∈
          Ls.map (fun l => List.replicate c ' ' ++ l ++ ['\n']) :=
        List.mem_map_of_mem _ h2
      have t1 : lmark <:+: (List.replicate c ' ' ++ lmark ++ ['\n']) :=
        ⟨List.replicate c ' ', ['\n'], by simp [List.append_assoc]⟩
      have t2 := List.infix_of_mem_flatten hmem2
      have t3 : (Ls.map (fun l => List.replicate c ' ' ++ l ++ ['\n'])).flatten <:+:
          (ld.take c ++ L1 ++ ['\n'] ++
            (Ls.map (fun l => List.replicate c ' ' ++ l ++ ['\n'])).flatten) :=
        ⟨ld.take c ++ L1 ++ ['\n'], [], by simp [List.append_assoc]⟩
      exact hin.trans (t1.trans (t2.trans t3))

/-- Witness for C7: including a file that itself holds the directive line
`"x: !include g"` leaves that text in the output unexpanded. -/
theorem preProcess_no_recursive_expansion_witness :
    processLines (fun n => if n = str "f" then some (str "x: !include g\ny") else none)
        [str "k: !include f"] [] =
      PResult.ok ((str "k: !include f").take 3 ++ str "x: !include g" ++ ['\n'] ++
        ([str "y"].map (fun l => List.replicate 3 ' ' ++ l ++ ['\n'])).flatten) ∧
    str "!include" <:+:
      ((str "k: !include f").take 3 ++ str "x: !include g" ++ ['\n'] ++
        ([str "y"].map (fun l => List.replicate 3 ' ' ++ l ++ ['\n'])).flatten) :=
  preProcess_no_recursive_expansion
    (fun n => if n = str "f" then some (str "x: !include g\ny") else none)
    (str "k: !include f") 3 (str "x: !include g\ny") (str "x: !include g") [str "y"]
    (str "x: !include g")
    (by decide) (by decide) rfl (by decide) (by decide) (by decide)

/-- C4, counterexample: for a raw error whose destination type token
(`foo.Bar`) is absent from the `ramlTypes` category table, the expected
category is rendered as the empty string — not as the raw token verbatim
as the claim states for every table. -/
theorem convertYAMLError_counterexample :
    convertYAMLError (str "line 3: cannot unmarshal !!seq into foo.Bar") =
      some (str "line 3: foo.Bar cannot be of type sequence, must be ") ∧
    convertYAMLError (str "line 3: cannot unmarshal !!seq into foo.Bar") ≠
      some (str "line 3: foo.Bar cannot be of type sequence, must be foo.Bar") := by
  decide

/-- C4, amended: a `cannot unmarshal` error with at least 7 space-split
parts (part 1 non-empty; 8 parts when the observed kind resolves to
`string`) is rendered as
`"line <n>: <destination label> cannot be of type <observed label>, must
be <expected category>"`, where the observed label falls back to the raw
kind token and — when it is `string` — carries the value snippet, the
destination label falls back to the raw type token, and the expected
category of a type missing from `ramlTypes` is the empty string. -/
theorem convertYAMLError_format (yamlError : Str)
    (hc : containsSubstr yamlError (str "cannot unmarshal") = true)
    (hlen : 7 ≤ (splitSep ' ' yamlError).length)
    (hp1 : (splitSep ' ' yamlError).getD 1 [] ≠ [])
    (hstr : ((goLookup yamlTypeToName ((splitSep ' ' yamlError).getD 4 [])).getD
        ((splitSep ' ' yamlError).getD 4 []) = str "string") →
      8 ≤ (splitSep ' ' yamlError).length) :
    convertYAMLError yamlError =
      some (if (goLookup yamlTypeToName ((splitSep ' ' yamlError).getD 4 [])).getD
          ((splitSep ' ' yamlError).getD 4 []) = str "string" then
        composeRamlError ((splitSep ' ' yamlError).getD 1 []).dropLast
          ((splitSep ' ' yamlError).getD 7 [])
          (str "string (got " ++ (splitSep ' ' yamlError).getD 5 [] ++ str ")")
      else
        composeRamlError ((splitSep ' ' yamlError).getD 1 []).dropLast
          ((splitSep ' ' yamlError).getD 6 [])
          ((goLookup yamlTypeToName ((splitSep ' ' yamlError).getD 4 [])).getD
            ((splitSep ' ' yamlError).getD 4 []))) := by
  simp only [convertYAMLError]
  rw [if_pos hc, if_pos hlen, if_neg hp1]
  by_cases hs : (goLookup yamlTypeToName ((splitSep ' ' yamlError).getD 4 [])).getD
      ((splitSep ' ' yamlError).getD 4 []) = str "string"
  · have h8 : ¬ (splitSep ' ' yamlError).length < 8 := by
      have := hstr hs
      omega
    rw [if_pos hs, if_neg h8, if_pos hs]
  · rw [if_neg hs, if_neg hs]

/-- Witness for C4 (amended): the scenario error
`"line 10: cannot unmarshal !!str ... into raml.HTTPCode"` renders with
destination label `HTTP code`, observed label `string (got ...)` and
expected category `integer`. -/
theorem convertYAMLError_format_witness :
    convertYAMLError (str "line 10: cannot unmarshal !!str `abc` into raml.HTTPCode") =
      some (str "line 10: HTTP code cannot be of type string (got `abc`), must be integer") := by
  have h := convertYAMLError_format
    (str "line 10: cannot unmarshal !!str `abc` into raml.HTTPCode")
    (by decide) (by decide) (by decide) (by decide)
  exact h.trans (by decide)

end Raml
